import Mathlib

/-!
Shallow embedding of `src/server/api/gemini.ts` (OCR client: rate limiter,
retry/backoff orchestrator, response text extractor, `analyzeImage` facade).

The file embeds the merge-resolved variant that the specification describes:
`getNanonetsEndpoint` with an optional `modelId` parameter, and the
model-id hint appended to 400-status terminal errors.

External collaborators (per the spec these are outside the core):
the HTTP transport is a parameter `fetcher`, the retryability predicate
`isRateLimitError` is a parameter `classify`, and `OCR_RATE_LIMIT_CONFIG`
is a parameter structure `OcrRateLimitConfig`.  JavaScript strings that may
be `undefined` are modelled as `String` with `""` for absent, which is
faithful because every use site goes through the falsy-coalescing `||`.
Timestamps (`Date.now()`) are integers supplied as explicit inputs.
-/

/-- JavaScript `String.prototype.trim`, modelled on the character list
(drop whitespace from both ends) so that concrete proofs can evaluate it;
the library's `String.trim` is an irreducible byte-position loop. -/
def jsTrim (s : String) : String :=
  ⟨((s.data.dropWhile Char.isWhitespace).reverse.dropWhile Char.isWhitespace).reverse⟩

/-- `s.slice(0, n)`: the first `n` characters of a string. -/
def jsSlice (s : String) (n : Nat) : String := ⟨s.data.take n⟩

/-- `s.toLowerCase()`. -/
def jsToLower (s : String) : String := ⟨s.data.map Char.toLower⟩

/-- Substring containment on character lists (the effect of testing a
fixed-literal regex against a string). -/
def containsSub : List Char → List Char → Bool
  | [], needle => needle.isEmpty
  | c :: rest, needle => needle.isPrefixOf (c :: rest) || containsSub rest needle

/-- A decoded JSON value, as produced by `response.json()`.  Objects are
association lists of fields; JavaScript object property lookup is modelled
by `lookupField`. -/
inductive Json where
  | null : Json
  | bool (b : Bool) : Json
  | num (n : Int) : Json
  | str (s : String) : Json
  | arr (elems : List Json) : Json
  | obj (fields : List (String × Json)) : Json
deriving Inhabited

/-- Property lookup on an object's field list (`node.key`). -/
def lookupField : List (String × Json) → String → Option Json
  | [], _ => none
  | (k, v) :: rest, key => if k = key then some v else lookupField rest key

/-- `node.key` for an arbitrary node: only objects have the known fields. -/
def getProp : Json → String → Option Json
  | Json.obj fs, key => lookupField fs key
  | _, _ => none

/-- `if (typeof node.key === 'string') texts.push(node.key)` — append the
field's value to the accumulated texts when present and string-typed. -/
def pushStrField (fs : List (String × Json)) (key : String) (texts : List String) : List String :=
  match lookupField fs key with
  | some (Json.str s) => texts ++ [s]
  | _ => texts

mutual

/-- `collectFromNode` of `extractTextFromNanonets`, with the closure-mutated
`texts` array made an explicit accumulator.  A falsy node (`null`, `false`,
`0`, `""`) contributes nothing; a (non-empty) string is pushed verbatim; any
other node contributes its string-typed `text`, `ocr_text`, `fullText`
fields in that order and then recurses into each of the seven known
collection fields that holds an array.  Non-object nodes have no properties,
so arrays, numbers and booleans contribute nothing of their own. -/
def collectFromNode : Json → List String → List String
  | Json.null, texts => texts
  | Json.bool _, texts => texts
  | Json.num _, texts => texts
  | Json.str s, texts => if s.isEmpty then texts else texts ++ [s]
  | Json.arr _, texts => texts
  | Json.obj fs, texts =>
      let texts := pushStrField fs "text" texts
      let texts := pushStrField fs "ocr_text" texts
      let texts := pushStrField fs "fullText" texts
      let texts := collectAtKey fs "result" texts
      let texts := collectAtKey fs "results" texts
      let texts := collectAtKey fs "predictions" texts
      let texts := collectAtKey fs "fields" texts
      let texts := collectAtKey fs "pages" texts
      let texts := collectAtKey fs "page_data" texts
      collectAtKey fs "lines" texts
termination_by structural node => node

/-- Visit the value stored under `key`: when it is an array, fold the
collector over its elements (`collection.forEach(collectFromNode)`);
any non-array value under the key is ignored. -/
def collectAtKey : List (String × Json) → String → List String → List String
  | [], _, texts => texts
  | (k, v) :: rest, key, texts =>
      if k = key then
        match v with
        | Json.arr xs => collectElems xs texts
        | _ => texts
      else collectAtKey rest key texts
termination_by structural fs => fs

/-- Fold the collector over the elements of an array, left to right. -/
def collectElems : List Json → List String → List String
  | [], texts => texts
  | x :: xs, texts => collectElems xs (collectFromNode x texts)
termination_by structural xs => xs

end

/-- `texts.join('\n')` of JavaScript arrays. -/
def joinNl : List String → String
  | [] => ""
  | [s] => s
  | s :: rest => s ++ "\n" ++ joinNl rest

/-- `extractTextFromNanonets`: collect all fragments, trim each, drop empty
ones, join with newlines, trim the whole; `null` when nothing survives. -/
def extractTextFromNanonets (responseData : Json) : Option String :=
  let texts := collectFromNode responseData []
  let combined := jsTrim (joinNl ((texts.map jsTrim).filter (fun s => !s.isEmpty)))
  if combined.isEmpty then none else some combined

/-- The string value stored under a field, when present and string-typed,
as a zero-or-one element fragment list. -/
def strFieldTexts (fs : List (String × Json)) (key : String) : List String :=
  match lookupField fs key with
  | some (Json.str s) => [s]
  | _ => []

mutual

/-- Declarative fragment list of a node, following the specification's
description of the traversal: a node's own text-bearing fields (`text`,
`ocr_text`, `fullText`, in that order) come before the fragments of the
elements of each known collection field, collections in the fixed order
and elements left to right.  Stated for comparison with the accumulator
form `collectFromNode` taken from the source. -/
def specFragments : Json → List String
  | Json.null => []
  | Json.bool _ => []
  | Json.num _ => []
  | Json.str s => if s.isEmpty then [] else [s]
  | Json.arr _ => []
  | Json.obj fs =>
      strFieldTexts fs "text" ++ strFieldTexts fs "ocr_text" ++ strFieldTexts fs "fullText"
        ++ specAtKey fs "result" ++ specAtKey fs "results" ++ specAtKey fs "predictions"
        ++ specAtKey fs "fields" ++ specAtKey fs "pages" ++ specAtKey fs "page_data"
        ++ specAtKey fs "lines"
termination_by structural node => node

/-- Fragments contributed through the collection field `key`. -/
def specAtKey : List (String × Json) → String → List String
  | [], _ => []
  | (k, v) :: rest, key =>
      if k = key then
        match v with
        | Json.arr xs => specElems xs
        | _ => []
      else specAtKey rest key
termination_by structural fs => fs

/-- Fragments of an array's elements, left to right. -/
def specElems : List Json → List String
  | [] => []
  | x :: xs => specFragments x ++ specElems xs
termination_by structural xs => xs

end

/-- The specification's description of the extractor, as a whole: trim
every fragment, drop empty fragments, join survivors with one newline,
trim the result; `null` exactly when no fragment survives. -/
def specExtract (responseData : Json) : Option String :=
  let survivors := ((specFragments responseData).map jsTrim).filter (fun s => !s.isEmpty)
  if survivors.isEmpty then none else some (jsTrim (joinNl survivors))

/-- The in-memory rate limiter's state and configuration. -/
structure RateLimiter where
  requests : List Int
  maxRequests : Nat
  windowMs : Int
deriving Repr, DecidableEq

/-- `RateLimiter.canMakeRequest`, with `Date.now()` an explicit input:
prune timestamps outside the window, deny (keeping only the prune) when the
remaining count reaches `maxRequests`, otherwise record `now` and admit. -/
def canMakeRequest (rl : RateLimiter) (now : Int) : Bool × RateLimiter :=
  let pruned := rl.requests.filter (fun time => now - time < rl.windowMs)
  if pruned.length ≥ rl.maxRequests then
    (false, { rl with requests := pruned })
  else
    (true, { rl with requests := pruned ++ [now] })

/-- `RateLimiter.getTimeUntilNextRequest`: zero while below capacity,
otherwise how long until the oldest recorded timestamp ages out
(`Math.min` of an empty spread is infinite, making the result zero). -/
def getTimeUntilNextRequest (rl : RateLimiter) (now : Int) : Int :=
  if rl.requests.length < rl.maxRequests then 0
  else
    match rl.requests.min? with
    | none => 0
    | some oldestRequest => max 0 (rl.windowMs - (now - oldestRequest))

/-- Run a sequence of `canMakeRequest` calls at the given times from a
state; returns the final state and the timestamps of admitted calls. -/
def runLimiter (rl : RateLimiter) : List Int → RateLimiter × List Int
  | [] => (rl, [])
  | now :: rest =>
      let step := canMakeRequest rl now
      let tail := runLimiter step.2 rest
      (tail.1, (if step.1 then [now] else []) ++ tail.2)

/-- Membership of a timestamp in the trailing window of length `w` ending
at `T`, mirroring the pruning comparison `now - time < windowMs`. -/
def inWindow (w T t : Int) : Bool := decide (T - t < w) && decide (t ≤ T)

/-- User-facing message templates of `OCR_RATE_LIMIT_CONFIG.messages`. -/
structure RateLimitMessages where
  rateLimitExceeded : Int → String
  maxRetriesExceeded : String

/-- The externally supplied `OCR_RATE_LIMIT_CONFIG`. -/
structure OcrRateLimitConfig where
  maxRequests : Nat
  windowMs : Int
  maxRetries : Nat
  baseDelay : Nat
  backoffMultiplier : Nat
  maxDelay : Nat
  messages : RateLimitMessages

/-- The backoff delay of an attempt index:
`Math.min(baseDelay * Math.pow(backoffMultiplier, attempt), maxDelay)`. -/
def backoffDelay (cfg : OcrRateLimitConfig) (attempt : Nat) : Nat :=
  min (cfg.baseDelay * cfg.backoffMultiplier ^ attempt) cfg.maxDelay

/-- An HTTP response as the orchestrator consumes it: status code, the
text body read on the error path, and the parsed JSON body on the success
path (`none` models `response.json()` throwing on a malformed body). -/
structure FetchResponse where
  status : Nat
  bodyText : String
  bodyJson : Option Json

/-- Outcome of one transport invocation: the promise rejects, or a
response arrives. -/
inductive FetchOutcome where
  | throw : FetchOutcome
  | resp : FetchResponse → FetchOutcome

/-- `response.ok` of the fetch API: status in the 2xx range. -/
def responseOk (status : Nat) : Bool := 200 ≤ status && status ≤ 299

/-- The regex test `/model id/i.test(errorText)`: the body mentions
"model id" case-insensitively. -/
def mentionsModelId (s : String) : Bool :=
  containsSub (jsToLower s).data "model id".data

/-- The corrective hint appended when a 400 response body mentions an
invalid model id. -/
def modelHint (status : Nat) (errorText : String) : String :=
  if status = 400 && mentionsModelId errorText then
    " Verify the Nanonets model ID by setting NANONETS_MODEL_ID or the x-nanonets-model header."
  else ""

/-- `errorText.slice(0, 500) || 'Failed to call Nanonets OCR API'`. -/
def sanitizedError (errorText : String) : String :=
  let sliced := jsSlice errorText 500
  if sliced.isEmpty then "Failed to call Nanonets OCR API" else sliced

/-- The terminal error message built from a non-ok response. -/
def apiErrorMessage (status : Nat) (errorText : String) : String :=
  "API Error (" ++ toString status ++ "): " ++ sanitizedError errorText
    ++ "." ++ modelHint status errorText

/-- The uniform result of one attempt-loop run plus its observable trace:
how many times the transport was invoked and which backoff sleeps ran. -/
structure AttemptOutcome where
  text : Option String
  error : Option String
  fetches : Nat
  sleeps : List Nat
deriving Repr, DecidableEq

/-- The `for (attempt = 0; attempt <= maxRetries; attempt++)` loop of
`analyzeImage`, written with `remaining = maxRetries + 1 - attempt`
iterations left so the recursion is structural; `remaining = 0` is the
loop exiting and returning the max-retries-exceeded outcome.  `fetcher i`
is the outcome of the transport call of attempt `i`; a rejected promise
(`throw`, and equally a success body whose `json()` parse throws) lands in
the catch block: terminal on the last attempt, otherwise sleep and retry.
A non-ok response classified retryable with attempts remaining sleeps and
retries; otherwise it is terminal with `apiErrorMessage`.  An ok response
is extracted: terminal no-text error, or the extracted text as success. -/
def runAttempts (cfg : OcrRateLimitConfig) (classify : Nat → String → Bool)
    (fetcher : Nat → FetchOutcome) : Nat → Nat → AttemptOutcome
  | 0, _ => ⟨none, some cfg.messages.maxRetriesExceeded, 0, []⟩
  | remaining + 1, attempt =>
      match fetcher attempt with
      | FetchOutcome.throw =>
          if attempt = cfg.maxRetries then
            ⟨none, some "An unexpected error occurred while processing the image.", 1, []⟩
          else
            let d := backoffDelay cfg attempt
            let rest := runAttempts cfg classify fetcher remaining (attempt + 1)
            ⟨rest.text, rest.error, rest.fetches + 1, d :: rest.sleeps⟩
      | FetchOutcome.resp r =>
          if responseOk r.status then
            match r.bodyJson with
            | none =>
                if attempt = cfg.maxRetries then
                  ⟨none, some "An unexpected error occurred while processing the image.", 1, []⟩
                else
                  let d := backoffDelay cfg attempt
                  let rest := runAttempts cfg classify fetcher remaining (attempt + 1)
                  ⟨rest.text, rest.error, rest.fetches + 1, d :: rest.sleeps⟩
            | some data =>
                match extractTextFromNanonets data with
                | none =>
                    ⟨none, some "No text extracted from the image. Try a clearer image or manual entry.", 1, []⟩
                | some extractedText => ⟨some extractedText, none, 1, []⟩
          else
            if classify r.status r.bodyText && decide (attempt < cfg.maxRetries) then
              let d := backoffDelay cfg attempt
              let rest := runAttempts cfg classify fetcher remaining (attempt + 1)
              ⟨rest.text, rest.error, rest.fetches + 1, d :: rest.sleeps⟩
            else
              ⟨none, some (apiErrorMessage r.status r.bodyText), 1, []⟩

/-- Environment configuration: `NANONETS_API_KEY` and `NANONETS_MODEL_ID`,
with `""` for an unset variable. -/
structure NanonetsEnv where
  apiKey : String
  modelId : String

/-- JavaScript falsy-coalescing `a || b` on strings. -/
def jsOr (a b : String) : String := if a.isEmpty then b else a

/-- `DEFAULT_NANONETS_MODEL`. -/
def DEFAULT_NANONETS_MODEL : String := "Nanonets-ocr2-7B"

/-- `getNanonetsEndpoint`: resolve the model id (argument, else
environment, else default) and build the per-model endpoint URL. -/
def getNanonetsEndpoint (env : NanonetsEnv) (modelId : String) : String :=
  let resolvedModelId := jsOr modelId (jsOr env.modelId DEFAULT_NANONETS_MODEL)
  "https://app.nanonets.com/api/v2/OCR/Model/" ++ resolvedModelId ++ "/LabelFile/"

/-- The observable outcome of one `analyzeImage` call: the `{text, error}`
result, the number of transport invocations, the backoff sleeps performed,
the rate limiter's recorded timestamps after the call, and the endpoint
used (present once the attempt loop was reached). -/
structure AnalyzeTrace where
  text : Option String
  error : Option String
  fetches : Nat
  sleeps : List Nat
  limiterRequests : List Int
  endpoint : Option String
deriving Repr, DecidableEq

/-- `analyzeImage`, with the transport (`fetcher`, taking the endpoint and
the attempt index), the retryability predicate (`classify`), the config,
the environment, the clock reading and the limiter's prior state as
explicit inputs.  Order as in the source: rate limiter first (consuming a
slot on admission), then API key resolution, then endpoint construction
and the attempt loop. -/
def analyzeImage (cfg : OcrRateLimitConfig) (classify : Nat → String → Bool)
    (env : NanonetsEnv) (fetcher : String → Nat → FetchOutcome)
    (now : Int) (requests : List Int)
    (imageBase64 : String) (mimeType : String := "image/jpeg")
    (apiKey : String := "") (modelId : String := "") : AnalyzeTrace :=
  let rl : RateLimiter := ⟨requests, cfg.maxRequests, cfg.windowMs⟩
  let step := canMakeRequest rl now
  if !step.1 then
    let waitTime := getTimeUntilNextRequest step.2 now
    ⟨none, some (cfg.messages.rateLimitExceeded waitTime), 0, [], step.2.requests, none⟩
  else
    let nanonetsKey := jsOr apiKey env.apiKey
    if nanonetsKey.isEmpty then
      ⟨none, some "API key missing. Please configure the Nanonets API key.", 0, [],
        step.2.requests, none⟩
    else
      let endpoint := getNanonetsEndpoint env modelId
      let out := runAttempts cfg classify (fetcher endpoint) (cfg.maxRetries + 1) 0
      ⟨out.text, out.error, out.fetches, out.sleeps, step.2.requests, some endpoint⟩

/-- The field names the collector inspects: the three text-bearing fields
and the seven collection fields. -/
def knownFieldKeys : List String :=
  ["text", "ocr_text", "fullText",
   "result", "results", "predictions", "fields", "pages", "page_data", "lines"]

/-- Invariant carried through a run of the rate limiter: `record` is the
limiter's current list, `admitted` the timestamps of all admitted calls so
far, `b` an upper bound on all past call times (and a lower bound on
future ones).  (1) every trailing window holds at most `M` admitted
timestamps; (2) an admitted timestamp still inside the window at `b`
occurs in `record` at least as often as in `admitted`; (3) admitted
timestamps are at most `b`. -/
def LimiterInv (M : Nat) (w : Int) (record admitted : List Int) (b : Int) : Prop :=
  (∀ T : Int, admitted.countP (fun t => inWindow w T t) ≤ M) ∧
  (∀ t : Int, b - t < w → admitted.count t ≤ record.count t) ∧
  (∀ t ∈ admitted, t ≤ b)

/-- The uniform result shape: exactly one of a non-empty success text or a
non-empty error message. -/
def WellFormedPair (text error : Option String) : Prop :=
  (∃ s, text = some s ∧ s ≠ "" ∧ error = none) ∨
  (text = none ∧ ∃ e, error = some e ∧ e ≠ "")

/-- The result shape of a full `analyzeImage` trace. -/
def WellFormedOutcome (tr : AnalyzeTrace) : Prop :=
  WellFormedPair tr.text tr.error

/-- A small concrete configuration used for concrete instantiations. -/
def cfgEx : OcrRateLimitConfig :=
  ⟨2, 10, 1, 100, 2, 1000,
    ⟨fun _ => "Rate limit exceeded, try again later", "Max retries exceeded"⟩⟩

/-- The configuration of the specification's backoff example:
`baseDelay = 1000`, `backoffMultiplier = 2`, `maxDelay = 10000`. -/
def cfgBackoffEx : OcrRateLimitConfig :=
  ⟨5, 60000, 4, 1000, 2, 10000,
    ⟨fun _ => "Rate limit exceeded, try again later", "Max retries exceeded"⟩⟩

/-! ### Lemmas about the collector and the extractor -/

/-- Pushing a string-typed field appends its fragment list. -/
theorem pushStrField_eq (fs : List (String × Json)) (key : String) (ts : List String) :
    pushStrField fs key ts = ts ++ strFieldTexts fs key := by
  cases h : lookupField fs key with
  | none => simp [pushStrField, strFieldTexts, h]
  | some v => cases v <;> simp [pushStrField, strFieldTexts, h]

/-- The accumulator-passing collector appends exactly the declarative
fragment list, at every node, key and element list. -/
theorem collect_eq_all :
    (∀ (n : Json) (ts : List String), collectFromNode n ts = ts ++ specFragments n) ∧
    (∀ (fs : List (String × Json)) (key : String) (ts : List String),
        collectAtKey fs key ts = ts ++ specAtKey fs key) ∧
    (∀ (xs : List Json) (ts : List String), collectElems xs ts = ts ++ specElems xs) := by
  refine collectFromNode.mutual_induct
    (fun n ts => collectFromNode n ts = ts ++ specFragments n)
    (fun fs key ts => collectAtKey fs key ts = ts ++ specAtKey fs key)
    (fun xs ts => collectElems xs ts = ts ++ specElems xs)
    ?_ ?_ ?_ ?_ ?_ ?_ ?_ ?_ ?_ ?_ ?_ ?_ ?_
  · intro ts; simp [collectFromNode, specFragments]
  · intro b ts; simp [collectFromNode, specFragments]
  · intro m ts; simp [collectFromNode, specFragments]
  · intro s ts hs; simp [collectFromNode, specFragments, hs]
  · intro s ts hs; simp [collectFromNode, specFragments, hs]
  · intro xs ts; simp [collectFromNode, specFragments]
  · intro fs ts t1 t2 t3 t4 t5 t6 t7 t8 t9 ih1 ih2 ih3 ih4 ih5 ih6 ih7
    have e1 : t1 = ts ++ strFieldTexts fs "text" := pushStrField_eq fs "text" ts
    have e2 : t2 = t1 ++ strFieldTexts fs "ocr_text" := pushStrField_eq fs "ocr_text" t1
    have e3 : t3 = t2 ++ strFieldTexts fs "fullText" := pushStrField_eq fs "fullText" t2
    have e4 : t4 = t3 ++ specAtKey fs "result" := ih1
    have e5 : t5 = t4 ++ specAtKey fs "results" := ih2
    have e6 : t6 = t5 ++ specAtKey fs "predictions" := ih3
    have e7 : t7 = t6 ++ specAtKey fs "fields" := ih4
    have e8 : t8 = t7 ++ specAtKey fs "pages" := ih5
    have e9 : t9 = t8 ++ specAtKey fs "page_data" := ih6
    simp only [collectFromNode, specFragments]
    rw [ih7, e9, e8, e7, e6, e5, e4, e3, e2, e1]
    simp [List.append_assoc]
  · intro ts; simp [collectElems, specElems]
  · intro x xs ts ih1 ih3
    simp only [collectElems, specElems]
    rw [ih3, ih1]
    simp [List.append_assoc]
  · intro key ts; simp [collectAtKey, specAtKey]
  · intro rest key ts xs ih
    simpa [collectAtKey, specAtKey] using ih
  · intro v rest key ts hv
    cases v with
    | arr xs => exact absurd rfl (hv xs)
    | null => simp [collectAtKey, specAtKey]
    | bool b => simp [collectAtKey, specAtKey]
    | num m => simp [collectAtKey, specAtKey]
    | str s => simp [collectAtKey, specAtKey]
    | obj gs => simp [collectAtKey, specAtKey]
  · intro k v rest key ts hk ih
    cases v <;> simpa [collectAtKey, specAtKey, hk] using ih

/-- Collector-to-fragments correspondence, node form. -/
theorem collectFromNode_eq (n : Json) (ts : List String) :
    collectFromNode n ts = ts ++ specFragments n := collect_eq_all.1 n ts

/-- A list produced by `dropWhile p` has a head not satisfying `p`. -/
theorem dropWhile_head_false {p : Char → Bool} :
    ∀ {l : List Char} {c : Char} {rest : List Char},
      l.dropWhile p = c :: rest → p c = false := by
  intro l
  induction l with
  | nil => intro c rest h; simp [List.dropWhile] at h
  | cons a l ih =>
      intro c rest h
      rw [List.dropWhile_cons] at h
      by_cases hp : p a
      · rw [if_pos hp] at h; exact ih h
      · rw [if_neg hp] at h
        cases h
        simpa using hp

/-- If trimming leaves the empty string, every character was whitespace. -/
theorem jsTrim_eq_empty_all_ws {s : String} (h : jsTrim s = "") :
    ∀ c ∈ s.data, c.isWhitespace = true := by
  have hd : ((s.data.dropWhile Char.isWhitespace).reverse.dropWhile
      Char.isWhitespace).reverse = ([] : List Char) := congrArg String.data h
  rw [List.reverse_eq_nil_iff, List.dropWhile_eq_nil_iff] at hd
  intro c hc
  have hsplit : s.data.takeWhile Char.isWhitespace ++ s.data.dropWhile Char.isWhitespace
      = s.data := List.takeWhile_append_dropWhile Char.isWhitespace s.data
  rw [← hsplit] at hc
  rcases List.mem_append.mp hc with h1 | h2
  · exact List.mem_takeWhile_imp h1
  · exact hd c (List.mem_reverse.mpr h2)

/-- A non-empty trimmed string contains a non-whitespace character. -/
theorem jsTrim_ne_empty_head {t : String} (h : jsTrim t ≠ "") :
    ∃ c ∈ (jsTrim t).data, c.isWhitespace = false := by
  rcases hd : (jsTrim t).data with _ | ⟨c, rest⟩
  · exact absurd (String.ext hd) h
  · refine ⟨c, by simp [hd], ?_⟩
    have hpre : (jsTrim t).data <+: t.data.dropWhile Char.isWhitespace := by
      have hsuf : ((t.data.dropWhile Char.isWhitespace).reverse.dropWhile Char.isWhitespace)
          <:+ (t.data.dropWhile Char.isWhitespace).reverse := List.dropWhile_suffix _
      have h2 := List.reverse_prefix.mpr hsuf
      rwa [List.reverse_reverse] at h2
    rw [hd] at hpre
    obtain ⟨tl, htl⟩ := hpre
    exact dropWhile_head_false htl.symm

/-- The join of a non-empty list extends its first element. -/
theorem joinNl_cons_prefix (s : String) (rest : List String) :
    ∃ tl, (joinNl (s :: rest)).data = s.data ++ tl := by
  cases rest with
  | nil => exact ⟨[], by simp [joinNl]⟩
  | cons r rs =>
      refine ⟨'\n' :: (joinNl (r :: rs)).data, ?_⟩
      show (s ++ "\n" ++ joinNl (r :: rs)).data = _
      rw [String.data_append, String.data_append]
      simp

/-- The extractor agrees with the specification's description: join the
trimmed non-empty fragments (in traversal order) with newlines and trim,
`null` exactly when no fragment survives. -/
theorem extractTextFromNanonets_eq_specExtract (j : Json) :
    extractTextFromNanonets j = specExtract j := by
  simp only [extractTextFromNanonets, specExtract]
  rw [collectFromNode_eq j [], List.nil_append]
  rcases hsv : ((specFragments j).map jsTrim).filter (fun s => !s.isEmpty) with _ | ⟨s, rest⟩
  · rw [hsv]
    decide
  · rw [hsv]
    have hmem : s ∈ ((specFragments j).map jsTrim).filter (fun s => !s.isEmpty) := by
      rw [hsv]; exact List.mem_cons_self _ _
    obtain ⟨hmem', hsb⟩ := List.mem_filter.mp hmem
    have hsne : s ≠ "" := by
      intro he; rw [he] at hsb; simp at hsb; exact absurd hsb (by decide)
    obtain ⟨t, _, hts⟩ := List.mem_map.mp hmem'
    obtain ⟨c, hcmem, hcw⟩ :=
      jsTrim_ne_empty_head (show jsTrim t ≠ "" from by rw [hts]; exact hsne)
    rw [hts] at hcmem
    obtain ⟨tl, htl⟩ := joinNl_cons_prefix s rest
    have hne : jsTrim (joinNl (s :: rest)) ≠ "" := by
      intro h0
      have hall := jsTrim_eq_empty_all_ws h0
      have hcj : c ∈ (joinNl (s :: rest)).data := by
        rw [htl]; exact List.mem_append_left _ hcmem
      have hcontra := hall c hcj
      rw [hcw] at hcontra
      exact absurd hcontra (by decide)
    have hbe : (jsTrim (joinNl (s :: rest))).isEmpty = false := by
      rw [Bool.eq_false_iff]
      intro hie
      exact hne ((String.isEmpty_iff _).mp hie)
    rw [hbe]
    simp

/-- C5: for every JSON value, `extractTextFromNanonets` returns the
newline-join of the trimmed, non-empty fragments collected in traversal
order (own text fields before the collection fields), trimmed as a whole,
or `null` when no fragment survives; on the concrete examples it yields
`"A\nB"` for the two-line object and `null` for `{}` and
`{ "pages": [] }`. -/
theorem extractTextFromNanonets_spec :
    (∀ j : Json, extractTextFromNanonets j = specExtract j) ∧
    extractTextFromNanonets (Json.obj [("lines", Json.arr
        [Json.obj [("text", Json.str "A")], Json.obj [("text", Json.str "B ")]])])
      = some "A\nB" ∧
    extractTextFromNanonets (Json.obj []) = none ∧
    extractTextFromNanonets (Json.obj [("pages", Json.arr [])]) = none :=
  ⟨extractTextFromNanonets_eq_specExtract, by decide, by decide, by decide⟩

/-- An unknown leading field name does not change a lookup for a known name. -/
theorem lookupField_cons_ne {k key : String} (hk : k ≠ key) (v : Json)
    (fs : List (String × Json)) :
    lookupField ((k, v) :: fs) key = lookupField fs key := by
  simp [lookupField, hk]

/-- An unknown leading field does not change a text-field push. -/
theorem pushStrField_cons_ne {k key : String} (hk : k ≠ key) (v : Json)
    (fs : List (String × Json)) (ts : List String) :
    pushStrField ((k, v) :: fs) key ts = pushStrField fs key ts := by
  simp [pushStrField, lookupField_cons_ne hk]

/-- An unknown leading field does not change a per-key visit. -/
theorem collectAtKey_cons_ne {k key : String} (hk : k ≠ key) (v : Json)
    (fs : List (String × Json)) (ts : List String) :
    collectAtKey ((k, v) :: fs) key ts = collectAtKey fs key ts := by
  cases v <;> simp [collectAtKey, hk]

/-- A known collection field holding a non-array value contributes nothing. -/
theorem collectAtKey_non_array {fs : List (String × Json)} {key : String} {v : Json}
    (hlk : lookupField fs key = some v) (hv : ∀ xs, v ≠ Json.arr xs) (ts : List String) :
    collectAtKey fs key ts = ts := by
  induction fs with
  | nil => simp [lookupField] at hlk
  | cons p rest ih =>
      obtain ⟨k, w⟩ := p
      by_cases hk : k = key
      · subst hk
        rw [lookupField, if_pos rfl] at hlk
        rw [Option.some_inj] at hlk
        subst hlk
        cases w with
        | arr xs => exact absurd rfl (hv xs)
        | null => simp [collectAtKey]
        | bool b => simp [collectAtKey]
        | num m => simp [collectAtKey]
        | str s => simp [collectAtKey]
        | obj gs => simp [collectAtKey]
      · rw [collectAtKey_cons_ne hk]
        apply ih
        rwa [lookupField_cons_ne hk] at hlk

/-- C10: the extractor never recurses into object-valued fields with names
outside the known set, nor into a known collection field whose value is
not an array: `{"data": {"text": "A"}}` and `{"lines": {"text": "A"}}`
both extract to `null`; adding a field with an unknown name never changes
the collected fragments, and a known collection field bound to a
non-array contributes nothing. -/
theorem extractor_traversal_restricted :
    extractTextFromNanonets (Json.obj [("data", Json.obj [("text", Json.str "A")])]) = none ∧
    extractTextFromNanonets (Json.obj [("lines", Json.obj [("text", Json.str "A")])]) = none ∧
    (∀ (k : String) (v : Json) (fs : List (String × Json)) (ts : List String),
        k ∉ knownFieldKeys →
        collectFromNode (Json.obj ((k, v) :: fs)) ts = collectFromNode (Json.obj fs) ts) ∧
    (∀ (fs : List (String × Json)) (key : String) (v : Json) (ts : List String),
        lookupField fs key = some v → (∀ xs, v ≠ Json.arr xs) →
        collectAtKey fs key ts = ts) := by
  refine ⟨by decide, by decide, ?_, ?_⟩
  · intro k v fs ts hk
    simp only [knownFieldKeys, List.mem_cons, not_or, List.not_mem_nil] at hk
    obtain ⟨h1, h2, h3, h4, h5, h6, h7, h8, h9, h10, _⟩ := hk
    simp only [collectFromNode]
    rw [pushStrField_cons_ne h1, pushStrField_cons_ne h2, pushStrField_cons_ne h3,
      collectAtKey_cons_ne h4, collectAtKey_cons_ne h5, collectAtKey_cons_ne h6,
      collectAtKey_cons_ne h7, collectAtKey_cons_ne h8, collectAtKey_cons_ne h9,
      collectAtKey_cons_ne h10]
  · intro fs key v ts hlk hv
    exact collectAtKey_non_array hlk hv ts

/-- Concrete instantiation of the traversal-restriction theorem. -/
theorem extractor_traversal_restricted_witness :
    ("data" ∉ knownFieldKeys) ∧
    collectFromNode (Json.obj [("data", Json.obj [("text", Json.str "A")])]) [] =
      collectFromNode (Json.obj []) [] ∧
    lookupField [("lines", Json.obj [("text", Json.str "A")])] "lines" =
      some (Json.obj [("text", Json.str "A")]) ∧
    collectAtKey [("lines", Json.obj [("text", Json.str "A")])] "lines" [] = [] :=
  ⟨by decide,
   extractor_traversal_restricted.2.2.1 "data" (Json.obj [("text", Json.str "A")]) [] []
     (by decide),
   rfl,
   extractor_traversal_restricted.2.2.2 [("lines", Json.obj [("text", Json.str "A")])]
     "lines" (Json.obj [("text", Json.str "A")]) [] rfl
     (fun xs h => Json.noConfusion h)⟩

/-! ### Lemmas about the rate limiter -/

/-- Characterization of a denied `canMakeRequest` call. -/
theorem canMakeRequest_deny {record : List Int} {M : Nat} {w n : Int}
    (hcap : (record.filter (fun time => decide (n - time < w))).length ≥ M) :
    canMakeRequest ⟨record, M, w⟩ n =
      (false, ⟨record.filter (fun time => decide (n - time < w)), M, w⟩) := by
  simp [canMakeRequest, hcap]

/-- Characterization of an admitted `canMakeRequest` call. -/
theorem canMakeRequest_admitted {record : List Int} {M : Nat} {w n : Int}
    (hcap : ¬ (record.filter (fun time => decide (n - time < w))).length ≥ M) :
    canMakeRequest ⟨record, M, w⟩ n =
      (true, ⟨record.filter (fun time => decide (n - time < w)) ++ [n], M, w⟩) := by
  simp [canMakeRequest, hcap]

/-- Specialisation of `List.count_filter` with the predicate explicit. -/
theorem count_filter_of_pos (p : Int → Bool) (l : List Int) (x : Int) (h : p x = true) :
    (l.filter p).count x = l.count x := List.count_filter h

/-- The limiter state after a call keeps the configured parameters. -/
theorem canMakeRequest_snd_eta (record : List Int) (M : Nat) (w n : Int) :
    (canMakeRequest ⟨record, M, w⟩ n).2 =
      ⟨(canMakeRequest ⟨record, M, w⟩ n).2.requests, M, w⟩ := by
  by_cases hcap : (record.filter (fun time => decide (n - time < w))).length ≥ M
  · rw [canMakeRequest_deny hcap]
  · rw [canMakeRequest_admitted hcap]

/-- One `canMakeRequest` call at a time `n` past the bound preserves the
limiter invariant, with `n` as the new bound. -/
theorem limiterInv_step {M : Nat} {w : Int} {record admitted : List Int} {b n : Int}
    (hinv : LimiterInv M w record admitted b) (hbn : b ≤ n) :
    LimiterInv M w (canMakeRequest ⟨record, M, w⟩ n).2.requests
      (admitted ++ (if (canMakeRequest ⟨record, M, w⟩ n).1 then [n] else [])) n := by
  obtain ⟨h1, h2, h3⟩ := hinv
  by_cases hcap : (record.filter (fun time => decide (n - time < w))).length ≥ M
  · rw [canMakeRequest_deny hcap]
    show LimiterInv M w (record.filter (fun time => decide (n - time < w)))
      (admitted ++ []) n
    rw [List.append_nil]
    refine ⟨h1, ?_, fun t ht => le_trans (h3 t ht) hbn⟩
    intro t htw
    have hpc : (record.filter (fun time => decide (n - time < w))).count t = record.count t :=
      List.count_filter (decide_eq_true htw)
    rw [hpc]
    exact h2 t (by omega)
  · rw [canMakeRequest_admitted hcap]
    show LimiterInv M w (record.filter (fun time => decide (n - time < w)) ++ [n])
      (admitted ++ [n]) n
    refine ⟨?_, ?_, ?_⟩
    · intro T
      rw [List.countP_append]
      by_cases hTn : inWindow w T n = true
      · have hwin : ∀ x ∈ admitted.filter (fun t => inWindow w T t),
            (admitted.filter (fun t => inWindow w T t)).count x ≤
              (record.filter (fun time => decide (n - time < w))).count x := by
          intro x hx
          obtain ⟨hxa, hxw⟩ := List.mem_filter.mp hx
          have hx1 : T - x < w ∧ x ≤ T := by
            simpa [inWindow, Bool.and_eq_true, decide_eq_true_eq] using hxw
          have hTn1 : T - n < w ∧ n ≤ T := by
            simpa [inWindow, Bool.and_eq_true, decide_eq_true_eq] using hTn
          have hxb : x ≤ b := h3 x hxa
          have hnx : n - x < w := by omega
          calc (admitted.filter (fun t => inWindow w T t)).count x
              ≤ admitted.count x := (List.filter_sublist _).count_le x
            _ ≤ record.count x := h2 x (by omega)
            _ = (record.filter (fun time => decide (n - time < w))).count x :=
                (count_filter_of_pos (fun time => decide (n - time < w)) record x
                  (decide_eq_true hnx)).symm
        have hlen : admitted.countP (fun t => inWindow w T t) ≤
            (record.filter (fun time => decide (n - time < w))).length := by
          rw [List.countP_eq_length_filter]
          exact (List.subperm_ext_iff.mpr hwin).length_le
        have hone : List.countP (fun t => inWindow w T t) [n] ≤ 1 := by
          simp [List.countP_cons, hTn]
        omega
      · have hTn0 : inWindow w T n = false := by
          simpa using hTn
        have hzero : List.countP (fun t => inWindow w T t) [n] = 0 := by
          simp [List.countP_cons, hTn0]
        rw [hzero]
        simpa using h1 T
    · intro t htw
      rw [List.count_append, List.count_append]
      have hpc : (record.filter (fun time => decide (n - time < w))).count t = record.count t :=
        List.count_filter (decide_eq_true htw)
      rw [hpc]
      exact Nat.add_le_add_right (h2 t (by omega)) _
    · intro t ht
      rcases List.mem_append.mp ht with h | h
      · exact le_trans (h3 t h) hbn
      · rw [List.mem_singleton] at h
        subst h
        exact le_refl _

/-- Running the limiter from an invariant state over non-decreasing call
times keeps every trailing-window count of admitted timestamps within the
budget. -/
theorem runLimiter_window_aux {M : Nat} {w : Int} :
    ∀ (nows : List Int) (record admitted : List Int) (b : Int),
      LimiterInv M w record admitted b →
      (∀ x ∈ nows, b ≤ x) → List.Pairwise (fun a b => a ≤ b) nows →
      ∀ T : Int,
        (admitted ++ (runLimiter ⟨record, M, w⟩ nows).2).countP
          (fun t => inWindow w T t) ≤ M
  | [], record, admitted, b, hinv, _, _, T => by
      simpa [runLimiter] using hinv.1 T
  | n :: rest, record, admitted, b, hinv, hble, hpw, T => by
      have hbn : b ≤ n := hble n (List.mem_cons_self _ _)
      have hstep := limiterInv_step hinv hbn
      obtain ⟨hpw1, hpw2⟩ := List.pairwise_cons.mp hpw
      have hrec := runLimiter_window_aux rest
        (canMakeRequest ⟨record, M, w⟩ n).2.requests
        (admitted ++ (if (canMakeRequest ⟨record, M, w⟩ n).1 then [n] else []))
        n hstep hpw1 hpw2 T
      rw [runLimiter, canMakeRequest_snd_eta]
      simpa [List.append_assoc] using hrec

/-- C1 (amended): for non-decreasing call times, the number of admitted
timestamps inside any trailing window of length `windowMs` never exceeds
`maxRequests`. -/
theorem rateLimiter_sliding_window_bound (M : Nat) (w : Int) (nows : List Int)
    (hmono : List.Pairwise (fun a b => a ≤ b) nows) (T : Int) :
    ((runLimiter ⟨[], M, w⟩ nows).2.countP (fun t => inWindow w T t)) ≤ M := by
  cases nows with
  | nil => simp [runLimiter]
  | cons n rest =>
      have base : LimiterInv M w [] [] n := by
        refine ⟨by simp, by simp, by simp⟩
      have hble : ∀ x ∈ n :: rest, n ≤ x := by
        intro x hx
        rcases List.mem_cons.mp hx with h | h
        · subst h; exact le_refl _
        · exact (List.pairwise_cons.mp hmono).1 x h
      simpa using runLimiter_window_aux (n :: rest) [] [] n base hble hmono T

/-- C1 counterexample: with `maxRequests = 2`, `windowMs = 10` and call
times `0, 1, 11, 2` (the clock stepping backwards), all four calls are
admitted, and the trailing window ending at time `2` holds three admitted
timestamps, exceeding `maxRequests`. -/
theorem rateLimiter_window_cex :
    (runLimiter ⟨[], 2, 10⟩ [0, 1, 11, 2]).2 = [0, 1, 11, 2] ∧
    ((runLimiter ⟨[], 2, 10⟩ [0, 1, 11, 2]).2.countP (fun t => inWindow 10 2 t)) = 3 := by
  decide

/-- Concrete instantiation of the sliding-window bound. -/
theorem rateLimiter_sliding_window_bound_witness :
    List.Pairwise (fun a b => a ≤ b) ([0, 1, 11, 12] : List Int) ∧
    ((runLimiter ⟨[], 2, 10⟩ [0, 1, 11, 12]).2.countP (fun t => inWindow 10 12 t)) ≤ 2 :=
  ⟨by decide, rateLimiter_sliding_window_bound 2 10 [0, 1, 11, 12] (by decide) 12⟩

/-! ### Lemmas about the backoff formula and the attempt loop -/

/-- C4: the backoff delay equals
`min(baseDelay * backoffMultiplier ^ attemptIndex, maxDelay)`, never
exceeds `maxDelay`, is monotonically non-decreasing in the attempt index
whenever `backoffMultiplier ≥ 1`, and with `baseDelay = 1000`,
`backoffMultiplier = 2`, `maxDelay = 10000` the delays for indices 0..4
are 1000, 2000, 4000, 8000, 10000. -/
theorem backoffDelay_formula :
    (∀ (cfg : OcrRateLimitConfig) (i : Nat),
        backoffDelay cfg i = min (cfg.baseDelay * cfg.backoffMultiplier ^ i) cfg.maxDelay ∧
        backoffDelay cfg i ≤ cfg.maxDelay) ∧
    (∀ (cfg : OcrRateLimitConfig) (i : Nat), 1 ≤ cfg.backoffMultiplier →
        backoffDelay cfg i ≤ backoffDelay cfg (i + 1)) ∧
    (List.range 5).map (backoffDelay cfgBackoffEx) = [1000, 2000, 4000, 8000, 10000] := by
  refine ⟨fun cfg i => ⟨rfl, Nat.min_le_right _ _⟩, ?_, by decide⟩
  intro cfg i hm
  unfold backoffDelay
  refine min_le_min ?_ (le_refl _)
  exact Nat.mul_le_mul_left _ (Nat.pow_le_pow_right hm (Nat.le_succ i))

/-- Concrete instantiation of the backoff monotonicity statement. -/
theorem backoffDelay_formula_witness :
    1 ≤ cfgBackoffEx.backoffMultiplier ∧
    backoffDelay cfgBackoffEx 2 ≤ backoffDelay cfgBackoffEx 3 :=
  ⟨by decide, backoffDelay_formula.2.1 cfgBackoffEx 2 (by decide)⟩

/-- The recorded state of an admitted call is the pruned record with the
current time appended. -/
theorem canMakeRequest_admit_requests {record : List Int} {M : Nat} {w n : Int}
    (h : (canMakeRequest ⟨record, M, w⟩ n).1 = true) :
    (canMakeRequest ⟨record, M, w⟩ n).2.requests =
      record.filter (fun time => decide (n - time < w)) ++ [n] := by
  by_cases hcap : (record.filter (fun time => decide (n - time < w))).length ≥ M
  · rw [canMakeRequest_deny hcap] at h
    simp at h
  · rw [canMakeRequest_admitted hcap]

/-- C2 (amended): with an admitted rate-limiter call and no resolvable API
key, `analyzeImage` returns the missing-credentials configuration error
without any transport call or sleep — but only after consuming a
rate-limiter slot: the recorded state is the pruned record with the call
time appended, not the pruned record alone. -/
theorem analyzeImage_missing_key
    (cfg : OcrRateLimitConfig) (classify : Nat → String → Bool) (env : NanonetsEnv)
    (fetcher : String → Nat → FetchOutcome) (now : Int) (requests : List Int)
    (imageBase64 mimeType apiKey modelId : String)
    (hadm : (canMakeRequest ⟨requests, cfg.maxRequests, cfg.windowMs⟩ now).1 = true)
    (hkey : (jsOr apiKey env.apiKey).isEmpty = true) :
    analyzeImage cfg classify env fetcher now requests imageBase64 mimeType apiKey modelId =
      ⟨none, some "API key missing. Please configure the Nanonets API key.", 0, [],
        requests.filter (fun time => decide (now - time < cfg.windowMs)) ++ [now], none⟩ := by
  simp only [analyzeImage, hadm, hkey, Bool.not_true]
  rw [canMakeRequest_admit_requests hadm]
  simp

/-- Concrete instantiation of the missing-key behaviour. -/
theorem analyzeImage_missing_key_witness :
    (canMakeRequest ⟨[], cfgEx.maxRequests, cfgEx.windowMs⟩ 0).1 = true ∧
    (jsOr "" (NanonetsEnv.mk "" "").apiKey).isEmpty = true ∧
    analyzeImage cfgEx (fun _ _ => false) ⟨"", ""⟩ (fun _ _ => FetchOutcome.throw) 0 []
        "img" "image/jpeg" "" "" =
      ⟨none, some "API key missing. Please configure the Nanonets API key.", 0, [],
        ([] : List Int).filter (fun time => decide ((0 : Int) - time < cfgEx.windowMs))
          ++ [0], none⟩ :=
  ⟨by decide, by decide,
   analyzeImage_missing_key cfgEx (fun _ _ => false) ⟨"", ""⟩ (fun _ _ => FetchOutcome.throw)
     0 [] "img" "image/jpeg" "" "" (by decide) (by decide)⟩

/-- C2 counterexample: with no API key available, the call reports the
configuration error, yet the limiter's recorded state is `[0]` — a slot
was consumed — whereas pruning alone would leave the record empty. -/
theorem analyzeImage_missing_key_cex :
    (analyzeImage cfgEx (fun _ _ => false) ⟨"", ""⟩ (fun _ _ => FetchOutcome.throw) 0 []
      "img").error = some "API key missing. Please configure the Nanonets API key." ∧
    (analyzeImage cfgEx (fun _ _ => false) ⟨"", ""⟩ (fun _ _ => FetchOutcome.throw) 0 []
      "img").fetches = 0 ∧
    (analyzeImage cfgEx (fun _ _ => false) ⟨"", ""⟩ (fun _ _ => FetchOutcome.throw) 0 []
      "img").limiterRequests = [0] ∧
    ([] : List Int).filter (fun time => decide ((0 : Int) - time < cfgEx.windowMs)) = [] ∧
    ([0] : List Int) ≠ [] := by
  decide

/-- On the admitted-with-key path, `analyzeImage` is the attempt loop run
from attempt 0 with `maxRetries + 1` iterations left, against the endpoint
resolved from the model id. -/
theorem analyzeImage_run
    (cfg : OcrRateLimitConfig) (classify : Nat → String → Bool) (env : NanonetsEnv)
    (fetcher : String → Nat → FetchOutcome) (now : Int) (requests : List Int)
    (imageBase64 mimeType apiKey modelId : String)
    (hadm : (canMakeRequest ⟨requests, cfg.maxRequests, cfg.windowMs⟩ now).1 = true)
    (hkey : (jsOr apiKey env.apiKey).isEmpty = false) :
    analyzeImage cfg classify env fetcher now requests imageBase64 mimeType apiKey modelId =
      ⟨(runAttempts cfg classify (fetcher (getNanonetsEndpoint env modelId))
          (cfg.maxRetries + 1) 0).text,
       (runAttempts cfg classify (fetcher (getNanonetsEndpoint env modelId))
          (cfg.maxRetries + 1) 0).error,
       (runAttempts cfg classify (fetcher (getNanonetsEndpoint env modelId))
          (cfg.maxRetries + 1) 0).fetches,
       (runAttempts cfg classify (fetcher (getNanonetsEndpoint env modelId))
          (cfg.maxRetries + 1) 0).sleeps,
       (canMakeRequest ⟨requests, cfg.maxRequests, cfg.windowMs⟩ now).2.requests,
       some (getNanonetsEndpoint env modelId)⟩ := by
  simp only [analyzeImage, hadm, hkey, Bool.not_true]
  simp

/-- A non-ok response not classified retryable terminates the loop at the
current attempt with the API-error message. -/
theorem runAttempts_first_terminal (cfg : OcrRateLimitConfig)
    (classify : Nat → String → Bool) (f : Nat → FetchOutcome) (r : FetchResponse)
    (rem attempt : Nat) (hr : f attempt = FetchOutcome.resp r)
    (hnok : responseOk r.status = false) (hnr : classify r.status r.bodyText = false) :
    runAttempts cfg classify f (rem + 1) attempt =
      ⟨none, some (apiErrorMessage r.status r.bodyText), 1, []⟩ := by
  simp [runAttempts, hr, hnok, hnr]

/-- `sanitizedError` is the body truncated to 500 characters, with the
generic fallback exactly when the body is empty. -/
theorem sanitizedError_eq (b : String) :
    sanitizedError b =
      (if b = "" then "Failed to call Nanonets OCR API" else jsSlice b 500) := by
  by_cases hb : b = ""
  · subst hb; decide
  · have h1 : (jsSlice b 500).isEmpty = false := by
      rw [Bool.eq_false_iff]
      intro hie
      apply hb
      have h2 := (String.isEmpty_iff _).mp hie
      have h3 : b.data.take 500 = [] := congrArg String.data h2
      rcases List.take_eq_nil_iff.mp h3 with h | h
      · exact absurd h (by decide)
      · exact String.ext h
    unfold sanitizedError
    simp [h1, hb]

/-- The sanitized error body never exceeds 500 characters. -/
theorem sanitizedError_length (b : String) : (sanitizedError b).length ≤ 500 := by
  rw [sanitizedError_eq]
  split
  · decide
  · show (b.data.take 500).length ≤ 500
    rw [List.length_take]
    exact Nat.min_le_left _ _

/-- C6: when the transport always answers with a non-2xx status that the
classifier deems non-retryable, exactly one attempt is made, no sleep
happens, and the terminal error carries the response body truncated to at
most 500 characters (a generic fallback when the body is empty) with the
model-id hint appended exactly when the status is 400 and the body
mentions "model id". -/
theorem analyzeImage_non_retryable_single_attempt
    (cfg : OcrRateLimitConfig) (classify : Nat → String → Bool) (env : NanonetsEnv)
    (fetcher : String → Nat → FetchOutcome) (now : Int) (requests : List Int)
    (imageBase64 mimeType apiKey modelId : String) (r : FetchResponse)
    (hadm : (canMakeRequest ⟨requests, cfg.maxRequests, cfg.windowMs⟩ now).1 = true)
    (hkey : (jsOr apiKey env.apiKey).isEmpty = false)
    (hresp : ∀ i, fetcher (getNanonetsEndpoint env modelId) i = FetchOutcome.resp r)
    (hnok : responseOk r.status = false)
    (hnr : classify r.status r.bodyText = false) :
    (analyzeImage cfg classify env fetcher now requests imageBase64 mimeType apiKey
        modelId).fetches = 1 ∧
    (analyzeImage cfg classify env fetcher now requests imageBase64 mimeType apiKey
        modelId).sleeps = [] ∧
    (analyzeImage cfg classify env fetcher now requests imageBase64 mimeType apiKey
        modelId).text = none ∧
    (analyzeImage cfg classify env fetcher now requests imageBase64 mimeType apiKey
        modelId).error = some (apiErrorMessage r.status r.bodyText) ∧
    apiErrorMessage r.status r.bodyText =
      "API Error (" ++ toString r.status ++ "): " ++ sanitizedError r.bodyText ++ "."
        ++ modelHint r.status r.bodyText ∧
    sanitizedError r.bodyText =
      (if r.bodyText = "" then "Failed to call Nanonets OCR API"
       else jsSlice r.bodyText 500) ∧
    (sanitizedError r.bodyText).length ≤ 500 ∧
    modelHint r.status r.bodyText =
      (if r.status = 400 && mentionsModelId r.bodyText then
        " Verify the Nanonets model ID by setting NANONETS_MODEL_ID or the x-nanonets-model header."
      else "") := by
  rw [analyzeImage_run cfg classify env fetcher now requests imageBase64 mimeType apiKey
      modelId hadm hkey,
    runAttempts_first_terminal cfg classify _ r cfg.maxRetries 0 (hresp 0) hnok hnr]
  exact ⟨rfl, rfl, rfl, rfl, rfl, sanitizedError_eq r.bodyText,
    sanitizedError_length r.bodyText, rfl⟩

/-- Concrete instantiation of the non-retryable single-attempt behaviour. -/
theorem analyzeImage_non_retryable_single_attempt_witness :
    responseOk 500 = false ∧
    (analyzeImage cfgEx (fun _ _ => false) ⟨"k", ""⟩
        (fun _ _ => FetchOutcome.resp ⟨500, "boom", none⟩) 0 [] "img").fetches = 1 ∧
    (analyzeImage cfgEx (fun _ _ => false) ⟨"k", ""⟩
        (fun _ _ => FetchOutcome.resp ⟨500, "boom", none⟩) 0 [] "img").error =
      some (apiErrorMessage 500 "boom") := by
  have h := analyzeImage_non_retryable_single_attempt cfgEx (fun _ _ => false) ⟨"k", ""⟩
    (fun _ _ => FetchOutcome.resp ⟨500, "boom", none⟩) 0 [] "img" "image/jpeg" "" ""
    ⟨500, "boom", none⟩ (by decide) (by decide) (fun i => rfl) (by decide) (by decide)
  exact ⟨by decide, h.1, h.2.2.2.1⟩

/-- The endpoint resolved from the placeholder model id. -/
theorem getNanonetsEndpoint_placeholder (env : NanonetsEnv) :
    getNanonetsEndpoint env "Nanonets-ocr2-7B" =
      "https://app.nanonets.com/api/v2/OCR/Model/Nanonets-ocr2-7B/LabelFile/" := by
  have h1 : ("Nanonets-ocr2-7B" : String).isEmpty = false := by decide
  unfold getNanonetsEndpoint jsOr
  rw [if_neg (by simp [h1])]
  decide

/-- The attempt loop always invokes the transport at least once. -/
theorem runAttempts_fetches_pos (cfg : OcrRateLimitConfig)
    (classify : Nat → String → Bool) (f : Nat → FetchOutcome) (rem attempt : Nat) :
    1 ≤ (runAttempts cfg classify f (rem + 1) attempt).fetches := by
  cases hf : f attempt with
  | throw =>
      by_cases hl : attempt = cfg.maxRetries
      · subst hl; simp [runAttempts, hf]
      · simp [runAttempts, hf, hl]
  | resp r =>
      by_cases hok : responseOk r.status = true
      · cases hj : r.bodyJson with
        | none =>
            by_cases hl : attempt = cfg.maxRetries
            · subst hl; simp [runAttempts, hf, hok, hj]
            · simp [runAttempts, hf, hok, hj, hl]
        | some data =>
            cases he : extractTextFromNanonets data with
            | none => simp [runAttempts, hf, hok, hj, he]
            | some t => simp [runAttempts, hf, hok, hj, he]
      · have hok' : responseOk r.status = false := Bool.eq_false_iff.mpr hok
        by_cases hretry : (classify r.status r.bodyText && decide (attempt < cfg.maxRetries))
            = true
        · simp [runAttempts, hf, hok', hretry]
        · have hretry' := Bool.eq_false_iff.mpr hretry
          simp [runAttempts, hf, hok', hretry']

/-- C3 (amended): `analyzeImage` performs no placeholder-model validation;
with the resolved model id `"Nanonets-ocr2-7B"` (also the default), the
endpoint is built from that id and the transport is invoked at least
once — the only model-id-specific behaviour is the corrective hint that
`modelHint` appends to a 400-status terminal error whose body mentions
"model id". -/
theorem analyzeImage_placeholder_model_proceeds
    (cfg : OcrRateLimitConfig) (classify : Nat → String → Bool) (env : NanonetsEnv)
    (fetcher : String → Nat → FetchOutcome) (now : Int) (requests : List Int)
    (imageBase64 mimeType apiKey : String)
    (hadm : (canMakeRequest ⟨requests, cfg.maxRequests, cfg.windowMs⟩ now).1 = true)
    (hkey : (jsOr apiKey env.apiKey).isEmpty = false) :
    (analyzeImage cfg classify env fetcher now requests imageBase64 mimeType apiKey
        "Nanonets-ocr2-7B").endpoint =
      some "https://app.nanonets.com/api/v2/OCR/Model/Nanonets-ocr2-7B/LabelFile/" ∧
    1 ≤ (analyzeImage cfg classify env fetcher now requests imageBase64 mimeType apiKey
        "Nanonets-ocr2-7B").fetches := by
  rw [analyzeImage_run cfg classify env fetcher now requests imageBase64 mimeType apiKey
      "Nanonets-ocr2-7B" hadm hkey]
  constructor
  · show some (getNanonetsEndpoint env "Nanonets-ocr2-7B") = _
    rw [getNanonetsEndpoint_placeholder env]
  · exact runAttempts_fetches_pos cfg classify
      (fetcher (getNanonetsEndpoint env "Nanonets-ocr2-7B")) cfg.maxRetries 0

/-- C3 counterexample: with the placeholder model id, a valid key and a
successful transport, the call returns extracted text after one transport
invocation against the placeholder-derived endpoint — not a terminal
configuration error, and the transport was invoked. -/
theorem analyzeImage_placeholder_model_cex :
    analyzeImage cfgEx (fun _ _ => false) ⟨"", ""⟩
        (fun _ _ => FetchOutcome.resp ⟨200, "", some (Json.obj [("text", Json.str "A")])⟩)
        0 [] "img" "image/jpeg" "key" "Nanonets-ocr2-7B" =
      ⟨some "A", none, 1, [], [0],
        some "https://app.nanonets.com/api/v2/OCR/Model/Nanonets-ocr2-7B/LabelFile/"⟩ := by
  decide

/-- Concrete instantiation of the placeholder-model behaviour. -/
theorem analyzeImage_placeholder_model_proceeds_witness :
    (canMakeRequest ⟨[], cfgEx.maxRequests, cfgEx.windowMs⟩ 0).1 = true ∧
    (jsOr "key" (NanonetsEnv.mk "" "").apiKey).isEmpty = false ∧
    (analyzeImage cfgEx (fun _ _ => false) ⟨"", ""⟩ (fun _ _ => FetchOutcome.throw) 0 []
        "img" "image/jpeg" "key" "Nanonets-ocr2-7B").endpoint =
      some "https://app.nanonets.com/api/v2/OCR/Model/Nanonets-ocr2-7B/LabelFile/" ∧
    1 ≤ (analyzeImage cfgEx (fun _ _ => false) ⟨"", ""⟩ (fun _ _ => FetchOutcome.throw) 0 []
        "img" "image/jpeg" "key" "Nanonets-ocr2-7B").fetches := by
  have h := analyzeImage_placeholder_model_proceeds cfgEx (fun _ _ => false) ⟨"", ""⟩
    (fun _ _ => FetchOutcome.throw) 0 [] "img" "image/jpeg" "key" (by decide) (by decide)
  exact ⟨by decide, by decide, h.1, h.2⟩

/-- One retry step: a non-ok response classified retryable with attempts
remaining sleeps the backoff delay and continues with the next attempt. -/
theorem runAttempts_retry_step (cfg : OcrRateLimitConfig)
    (classify : Nat → String → Bool) (f : Nat → FetchOutcome) (r : FetchResponse)
    (rem attempt : Nat) (hr : f attempt = FetchOutcome.resp r)
    (hnok : responseOk r.status = false)
    (hcl : classify r.status r.bodyText = true) (ha : attempt < cfg.maxRetries) :
    runAttempts cfg classify f (rem + 1) attempt =
      ⟨(runAttempts cfg classify f rem (attempt + 1)).text,
       (runAttempts cfg classify f rem (attempt + 1)).error,
       (runAttempts cfg classify f rem (attempt + 1)).fetches + 1,
       backoffDelay cfg attempt :: (runAttempts cfg classify f rem (attempt + 1)).sleeps⟩ := by
  simp [runAttempts, hr, hnok, hcl, ha]

/-- Retryable failures on attempts `a .. a+k-1` followed by a success with
extractable text on attempt `a+k` yield the text, with `k+1` transport
calls and the backoff sleeps of attempt indices `a .. a+k-1`. -/
theorem runAttempts_retry_then_success (cfg : OcrRateLimitConfig)
    (classify : Nat → String → Bool) (f : Nat → FetchOutcome) (rs : Nat → FetchResponse)
    (r : FetchResponse) (data : Json) (t : String)
    (hok : responseOk r.status = true) (hjson : r.bodyJson = some data)
    (hext : extractTextFromNanonets data = some t) :
    ∀ (k a : Nat), a + k ≤ cfg.maxRetries →
      (∀ i, a ≤ i → i < a + k → f i = FetchOutcome.resp (rs i) ∧
          responseOk (rs i).status = false ∧ classify (rs i).status (rs i).bodyText = true) →
      f (a + k) = FetchOutcome.resp r →
      ∀ rem, a + (rem + 1) = cfg.maxRetries + 1 →
        runAttempts cfg classify f (rem + 1) a =
          ⟨some t, none, k + 1, (List.range' a k).map (backoffDelay cfg)⟩
  | 0, a, hle, hfail, hsucc, rem, hrem => by
      have hfa : f a = FetchOutcome.resp r := by simpa using hsucc
      simp [runAttempts, hfa, hok, hjson, hext, List.range']
  | k + 1, a, hle, hfail, hsucc, rem, hrem => by
      obtain ⟨hf, hnok, hcl⟩ := hfail a (le_refl a) (by omega)
      have ha : a < cfg.maxRetries := by omega
      obtain ⟨rem', hrem'⟩ : ∃ rem', rem = rem' + 1 := by
        cases rem with
        | zero => omega
        | succ m => exact ⟨m, rfl⟩
      subst hrem'
      have hrec := runAttempts_retry_then_success cfg classify f rs r data t hok hjson hext
        k (a + 1) (by omega)
        (fun i h1 h2 => hfail i (by omega) (by omega))
        (by rw [show a + 1 + k = a + (k + 1) from by omega]; exact hsucc)
        rem' (by omega)
      rw [runAttempts_retry_step cfg classify f (rs a) (rem' + 1) a hf hnok hcl ha, hrec]
      simp [List.range'_succ]

/-- C7: if the transport fails with a classified-retryable status on the
first `k` attempts and succeeds with an extractable body on attempt `k`
(`k ≤ maxRetries`), `analyzeImage` returns the extracted text, makes
`k + 1` transport calls, and sleeps `k` times, the `i`-th sleep lasting
`min(baseDelay * backoffMultiplier ^ i, maxDelay)`. -/
theorem analyzeImage_retryable_then_success
    (cfg : OcrRateLimitConfig) (classify : Nat → String → Bool) (env : NanonetsEnv)
    (fetcher : String → Nat → FetchOutcome) (now : Int) (requests : List Int)
    (imageBase64 mimeType apiKey modelId : String)
    (rs : Nat → FetchResponse) (r : FetchResponse) (data : Json) (t : String) (k : Nat)
    (hadm : (canMakeRequest ⟨requests, cfg.maxRequests, cfg.windowMs⟩ now).1 = true)
    (hkey : (jsOr apiKey env.apiKey).isEmpty = false)
    (hk : k ≤ cfg.maxRetries)
    (hfail : ∀ i, i < k →
        fetcher (getNanonetsEndpoint env modelId) i = FetchOutcome.resp (rs i) ∧
        responseOk (rs i).status = false ∧ classify (rs i).status (rs i).bodyText = true)
    (hsucc : fetcher (getNanonetsEndpoint env modelId) k = FetchOutcome.resp r)
    (hok : responseOk r.status = true) (hjson : r.bodyJson = some data)
    (hext : extractTextFromNanonets data = some t) :
    analyzeImage cfg classify env fetcher now requests imageBase64 mimeType apiKey modelId =
      ⟨some t, none, k + 1, (List.range k).map (backoffDelay cfg),
        (canMakeRequest ⟨requests, cfg.maxRequests, cfg.windowMs⟩ now).2.requests,
        some (getNanonetsEndpoint env modelId)⟩ := by
  rw [analyzeImage_run cfg classify env fetcher now requests imageBase64 mimeType apiKey
      modelId hadm hkey]
  have h := runAttempts_retry_then_success cfg classify
    (fetcher (getNanonetsEndpoint env modelId)) rs r data t hok hjson hext k 0 (by omega)
    (fun i h1 h2 => hfail i (by omega))
    (by simpa using hsucc) cfg.maxRetries (by omega)
  rw [h]
  simp [List.range_eq_range']

/-- Concrete instantiation of the retry-then-success behaviour: one 429
failure, then success, with the single backoff sleep of 100 ms. -/
theorem analyzeImage_retryable_then_success_witness :
    (1 ≤ cfgEx.maxRetries) ∧
    analyzeImage cfgEx (fun s _ => decide (s = 429)) ⟨"k", ""⟩
        (fun _ i => if i = 0 then FetchOutcome.resp ⟨429, "slow", none⟩
          else FetchOutcome.resp ⟨200, "", some (Json.obj [("text", Json.str "A")])⟩)
        0 [] "img" "image/jpeg" "" "" =
      ⟨some "A", none, 2, [100], [0],
        some "https://app.nanonets.com/api/v2/OCR/Model/Nanonets-ocr2-7B/LabelFile/"⟩ := by
  have h := analyzeImage_retryable_then_success cfgEx (fun s _ => decide (s = 429)) ⟨"k", ""⟩
    (fun _ i => if i = 0 then FetchOutcome.resp ⟨429, "slow", none⟩
      else FetchOutcome.resp ⟨200, "", some (Json.obj [("text", Json.str "A")])⟩)
    0 [] "img" "image/jpeg" "" ""
    (fun _ => ⟨429, "slow", none⟩) ⟨200, "", some (Json.obj [("text", Json.str "A")])⟩
    (Json.obj [("text", Json.str "A")]) "A" 1
    (by decide) (by decide) (by decide)
    (fun i hi => by
      have hi0 : i = 0 := by omega
      subst hi0
      exact ⟨rfl, by decide, by decide⟩)
    rfl (by decide) rfl (by decide)
  exact ⟨by decide, h.trans (by decide)⟩

/-- When every attempt up to `maxRetries` fails with a retryable status,
the loop runs all remaining attempts and the last attempt returns the
API-error outcome built from its own response; the post-loop
max-retries-exceeded return is not reached. -/
theorem runAttempts_all_retryable (cfg : OcrRateLimitConfig)
    (classify : Nat → String → Bool) (f : Nat → FetchOutcome) (rs : Nat → FetchResponse)
    (hfail : ∀ i, i ≤ cfg.maxRetries → f i = FetchOutcome.resp (rs i) ∧
        responseOk (rs i).status = false ∧ classify (rs i).status (rs i).bodyText = true) :
    ∀ (rem a : Nat), a + (rem + 1) = cfg.maxRetries + 1 →
      runAttempts cfg classify f (rem + 1) a =
        ⟨none,
          some (apiErrorMessage (rs cfg.maxRetries).status (rs cfg.maxRetries).bodyText),
          rem + 1, (List.range' a rem).map (backoffDelay cfg)⟩
  | 0, a, hrem => by
      have ha : a = cfg.maxRetries := by omega
      obtain ⟨hf, hnok, hcl⟩ := hfail a (by omega)
      subst ha
      have hlt : ¬ (cfg.maxRetries < cfg.maxRetries) := by omega
      simp [runAttempts, hf, hnok, hcl, hlt, List.range']
  | rem + 1, a, hrem => by
      obtain ⟨hf, hnok, hcl⟩ := hfail a (by omega)
      have ha : a < cfg.maxRetries := by omega
      have hrec := runAttempts_all_retryable cfg classify f rs hfail rem (a + 1) (by omega)
      rw [runAttempts_retry_step cfg classify f (rs a) (rem + 1) a hf hnok hcl ha, hrec]
      simp [List.range'_succ]

/-- C9 (amended): if every attempt fails with a status classified as
retryable, all `maxRetries + 1` attempts are made and the call returns the
terminal API-error outcome built from the final attempt's response — the
post-loop "max retries exceeded" return is dead for `maxRetries ≥ 0`, so
`OCR_RATE_LIMIT_CONFIG.messages.maxRetriesExceeded` is not what this path
reports. -/
theorem analyzeImage_all_retryable_exhausts
    (cfg : OcrRateLimitConfig) (classify : Nat → String → Bool) (env : NanonetsEnv)
    (fetcher : String → Nat → FetchOutcome) (now : Int) (requests : List Int)
    (imageBase64 mimeType apiKey modelId : String) (rs : Nat → FetchResponse)
    (hadm : (canMakeRequest ⟨requests, cfg.maxRequests, cfg.windowMs⟩ now).1 = true)
    (hkey : (jsOr apiKey env.apiKey).isEmpty = false)
    (hfail : ∀ i, i ≤ cfg.maxRetries →
        fetcher (getNanonetsEndpoint env modelId) i = FetchOutcome.resp (rs i) ∧
        responseOk (rs i).status = false ∧ classify (rs i).status (rs i).bodyText = true) :
    analyzeImage cfg classify env fetcher now requests imageBase64 mimeType apiKey modelId =
      ⟨none,
        some (apiErrorMessage (rs cfg.maxRetries).status (rs cfg.maxRetries).bodyText),
        cfg.maxRetries + 1, (List.range cfg.maxRetries).map (backoffDelay cfg),
        (canMakeRequest ⟨requests, cfg.maxRequests, cfg.windowMs⟩ now).2.requests,
        some (getNanonetsEndpoint env modelId)⟩ := by
  rw [analyzeImage_run cfg classify env fetcher now requests imageBase64 mimeType apiKey
      modelId hadm hkey,
    runAttempts_all_retryable cfg classify _ rs hfail cfg.maxRetries 0 (by omega)]
  simp [List.range_eq_range']

/-- C9 counterexample: with `maxRetries = 1` and a transport that always
answers 429 (classified retryable), the call makes both attempts and
returns the API-error message of the last response, not
`messages.maxRetriesExceeded`. -/
theorem analyzeImage_max_retries_dead_return_cex :
    (analyzeImage cfgEx (fun _ _ => true) ⟨"k", ""⟩
        (fun _ _ => FetchOutcome.resp ⟨429, "slow down", none⟩) 0 [] "img").error =
      some "API Error (429): slow down." ∧
    cfgEx.messages.maxRetriesExceeded = "Max retries exceeded" ∧
    (analyzeImage cfgEx (fun _ _ => true) ⟨"k", ""⟩
        (fun _ _ => FetchOutcome.resp ⟨429, "slow down", none⟩) 0 [] "img").error ≠
      some cfgEx.messages.maxRetriesExceeded ∧
    (analyzeImage cfgEx (fun _ _ => true) ⟨"k", ""⟩
        (fun _ _ => FetchOutcome.resp ⟨429, "slow down", none⟩) 0 [] "img").fetches =
      cfgEx.maxRetries + 1 := by
  decide

/-- Concrete instantiation of the all-retryable exhaustion behaviour. -/
theorem analyzeImage_all_retryable_exhausts_witness :
    responseOk 429 = false ∧
    analyzeImage cfgEx (fun _ _ => true) ⟨"k", ""⟩
        (fun _ _ => FetchOutcome.resp ⟨429, "slow down", none⟩) 0 [] "img" "image/jpeg" "" "" =
      ⟨none, some (apiErrorMessage 429 "slow down"), 2, [100], [0],
        some "https://app.nanonets.com/api/v2/OCR/Model/Nanonets-ocr2-7B/LabelFile/"⟩ := by
  have h := analyzeImage_all_retryable_exhausts cfgEx (fun _ _ => true) ⟨"k", ""⟩
    (fun _ _ => FetchOutcome.resp ⟨429, "slow down", none⟩) 0 [] "img" "image/jpeg" "" ""
    (fun _ => ⟨429, "slow down", none⟩) (by decide) (by decide)
    (fun i hi => ⟨rfl, rfl, rfl⟩)
  exact ⟨by decide, h.trans (by decide)⟩

/-- Extracted text is never the empty string. -/
theorem extract_some_ne_empty {data : Json} {t : String}
    (h : extractTextFromNanonets data = some t) : t ≠ "" := by
  simp only [extractTextFromNanonets] at h
  split at h
  · exact absurd h (by simp)
  · rename_i hcond
    rw [Option.some_inj] at h
    subst h
    intro he
    exact hcond ((String.isEmpty_iff _).mpr he)

/-- The terminal API-error message is never empty. -/
theorem apiErrorMessage_ne_empty (status : Nat) (b : String) :
    apiErrorMessage status b ≠ "" := by
  intro h
  have hlen := congrArg String.length h
  simp only [apiErrorMessage, String.length_append] at hlen
  have h1 : ("API Error (" : String).length = 11 := by decide
  have h2 : ("" : String).length = 0 := by decide
  omega

/-- Every run of the attempt loop ends in the uniform result shape. -/
theorem runAttempts_wf (cfg : OcrRateLimitConfig) (classify : Nat → String → Bool)
    (f : Nat → FetchOutcome) (hmsg : cfg.messages.maxRetriesExceeded ≠ "") :
    ∀ (rem attempt : Nat),
      WellFormedPair (runAttempts cfg classify f rem attempt).text
        (runAttempts cfg classify f rem attempt).error
  | 0, attempt => Or.inr ⟨rfl, cfg.messages.maxRetriesExceeded, rfl, hmsg⟩
  | rem + 1, attempt => by
      cases hf : f attempt with
      | throw =>
          by_cases hl : attempt = cfg.maxRetries
          · have he : runAttempts cfg classify f (rem + 1) attempt =
                ⟨none, some "An unexpected error occurred while processing the image.",
                  1, []⟩ := by
              subst hl
              simp [runAttempts, hf]
            rw [he]
            exact Or.inr ⟨rfl, _, rfl, by decide⟩
          · have he : runAttempts cfg classify f (rem + 1) attempt =
                ⟨(runAttempts cfg classify f rem (attempt + 1)).text,
                 (runAttempts cfg classify f rem (attempt + 1)).error,
                 (runAttempts cfg classify f rem (attempt + 1)).fetches + 1,
                 backoffDelay cfg attempt ::
                   (runAttempts cfg classify f rem (attempt + 1)).sleeps⟩ := by
              simp [runAttempts, hf, hl]
            rw [he]
            exact runAttempts_wf cfg classify f hmsg rem (attempt + 1)
      | resp r =>
          by_cases hok : responseOk r.status = true
          · cases hj : r.bodyJson with
            | none =>
                by_cases hl : attempt = cfg.maxRetries
                · have he : runAttempts cfg classify f (rem + 1) attempt =
                      ⟨none, some "An unexpected error occurred while processing the image.",
                        1, []⟩ := by
                    subst hl
                    simp [runAttempts, hf, hok, hj]
                  rw [he]
                  exact Or.inr ⟨rfl, _, rfl, by decide⟩
                · have he : runAttempts cfg classify f (rem + 1) attempt =
                      ⟨(runAttempts cfg classify f rem (attempt + 1)).text,
                       (runAttempts cfg classify f rem (attempt + 1)).error,
                       (runAttempts cfg classify f rem (attempt + 1)).fetches + 1,
                       backoffDelay cfg attempt ::
                         (runAttempts cfg classify f rem (attempt + 1)).sleeps⟩ := by
                    simp [runAttempts, hf, hok, hj, hl]
                  rw [he]
                  exact runAttempts_wf cfg classify f hmsg rem (attempt + 1)
            | some data =>
                cases hext : extractTextFromNanonets data with
                | none =>
                    have he : runAttempts cfg classify f (rem + 1) attempt =
                        ⟨none,
                          some "No text extracted from the image. Try a clearer image or manual entry.",
                          1, []⟩ := by
                      simp [runAttempts, hf, hok, hj, hext]
                    rw [he]
                    exact Or.inr ⟨rfl, _, rfl, by decide⟩
                | some t =>
                    have he : runAttempts cfg classify f (rem + 1) attempt =
                        ⟨some t, none, 1, []⟩ := by
                      simp [runAttempts, hf, hok, hj, hext]
                    rw [he]
                    exact Or.inl ⟨t, rfl, extract_some_ne_empty hext, rfl⟩
          · have hok' : responseOk r.status = false := Bool.eq_false_iff.mpr hok
            by_cases hretry :
                (classify r.status r.bodyText && decide (attempt < cfg.maxRetries)) = true
            · rw [Bool.and_eq_true, decide_eq_true_eq] at hretry
              have he := runAttempts_retry_step cfg classify f r rem attempt hf hok'
                hretry.1 hretry.2
              rw [he]
              exact runAttempts_wf cfg classify f hmsg rem (attempt + 1)
            · have hretry' := Bool.eq_false_iff.mpr hretry
              have he : runAttempts cfg classify f (rem + 1) attempt =
                  ⟨none, some (apiErrorMessage r.status r.bodyText), 1, []⟩ := by
                simp [runAttempts, hf, hok', hretry']
              rw [he]
              exact Or.inr ⟨rfl, _, rfl, apiErrorMessage_ne_empty r.status r.bodyText⟩

/-- C8: whatever the transport does on each attempt (throws, a non-2xx
response, or a success whose body parses or not), `analyzeImage` always
returns the uniform result shape — either a non-empty success text and no
error, or no text and a non-empty error message — provided the externally
configured message templates are themselves non-empty. -/
theorem analyzeImage_uniform_result
    (cfg : OcrRateLimitConfig) (classify : Nat → String → Bool) (env : NanonetsEnv)
    (fetcher : String → Nat → FetchOutcome) (now : Int) (requests : List Int)
    (imageBase64 mimeType apiKey modelId : String)
    (hmsg1 : ∀ wtime : Int, cfg.messages.rateLimitExceeded wtime ≠ "")
    (hmsg2 : cfg.messages.maxRetriesExceeded ≠ "") :
    WellFormedOutcome (analyzeImage cfg classify env fetcher now requests imageBase64
      mimeType apiKey modelId) := by
  unfold WellFormedOutcome
  by_cases hadm : (canMakeRequest ⟨requests, cfg.maxRequests, cfg.windowMs⟩ now).1 = true
  · by_cases hkey : (jsOr apiKey env.apiKey).isEmpty = true
    · rw [analyzeImage_missing_key cfg classify env fetcher now requests imageBase64
        mimeType apiKey modelId hadm hkey]
      exact Or.inr ⟨rfl, _, rfl, by decide⟩
    · rw [analyzeImage_run cfg classify env fetcher now requests imageBase64 mimeType
        apiKey modelId hadm (Bool.eq_false_iff.mpr hkey)]
      exact runAttempts_wf cfg classify (fetcher (getNanonetsEndpoint env modelId)) hmsg2
        (cfg.maxRetries + 1) 0
  · have hadm' : (canMakeRequest ⟨requests, cfg.maxRequests, cfg.windowMs⟩ now).1 = false :=
      Bool.eq_false_iff.mpr hadm
    have he : analyzeImage cfg classify env fetcher now requests imageBase64 mimeType
        apiKey modelId =
        ⟨none, some (cfg.messages.rateLimitExceeded (getTimeUntilNextRequest
          (canMakeRequest ⟨requests, cfg.maxRequests, cfg.windowMs⟩ now).2 now)), 0, [],
          (canMakeRequest ⟨requests, cfg.maxRequests, cfg.windowMs⟩ now).2.requests,
          none⟩ := by
      simp [analyzeImage, hadm']
    rw [he]
    exact Or.inr ⟨rfl, _, rfl, hmsg1 _⟩

/-- Concrete instantiation of the uniform result shape. -/
theorem analyzeImage_uniform_result_witness :
    (∀ wtime : Int, cfgEx.messages.rateLimitExceeded wtime ≠ "") ∧
    cfgEx.messages.maxRetriesExceeded ≠ "" ∧
    WellFormedOutcome (analyzeImage cfgEx (fun _ _ => false) ⟨"", ""⟩
      (fun _ _ => FetchOutcome.throw) 0 [] "img" "image/jpeg" "" "") :=
  ⟨fun _ => show ("Rate limit exceeded, try again later" : String) ≠ "" by decide, by decide,
   analyzeImage_uniform_result cfgEx (fun _ _ => false) ⟨"", ""⟩
     (fun _ _ => FetchOutcome.throw) 0 [] "img" "image/jpeg" "" ""
     (fun _ => show ("Rate limit exceeded, try again later" : String) ≠ "" by decide)
     (by decide)⟩
